import Mathlib

/-!
Verification of the openwork evidence acquisition and indexing pipeline.

Shallow embedding of the Python sources:
  * `scripts/ingest-indian-guidelines.py` — text chunking, chunk ids,
    per-chunk embedding with skip-on-failure, batched persistence,
    bucket-file selection;
  * `lib/agents/sub_agents/dailymed_retriever.py` — the DailyMed
    retrieval agent's empty-input guard and SPL section parsing;
  * `lib/config/gcp_config.py` — model selection and configuration
    validation.

Python strings are modelled as `List Char`, Python ints as `Int`/`Nat`,
fallible code as `Option`/`Except`.  Loops whose termination is in
question are modelled with explicit fuel.
-/

/-- Python whitespace characters stripped by `str.strip()` (ASCII part,
which is all that the ingested texts use). -/
def isPySpace (c : Char) : Bool :=
  c = ' ' || c = '\t' || c = '\n' || c = '\r' || c = '\x0b' || c = '\x0c'

/-- Model of Python `s.strip()`: remove whitespace from both ends. -/
def pyStrip (l : List Char) : List Char :=
  ((l.dropWhile isPySpace).reverse.dropWhile isPySpace).reverse

/-- Model of the Python slice `s[a:b]` (step 1) with possibly negative
indices: a negative index counts from the end, then both ends are
clamped to `[0, len]`. -/
def pySlice (l : List Char) (a b : Int) : List Char :=
  let n : Int := l.length
  let a' : Nat := (if a < 0 then max (a + n) 0 else min a n).toNat
  let b' : Nat := (if b < 0 then max (b + n) 0 else min b n).toNat
  (l.take b').drop a'

/-- Model of Python `s.rfind(pat)` for a nonempty pattern: the highest
index at which `pat` occurs in `l`, or `-1` when it does not occur. -/
def rfindPat (l pat : List Char) : Int :=
  ((List.range l.length).filter
      (fun i => (l.drop i).take pat.length == pat)).foldl
    (fun a i => max a (i : Int)) (-1)

/-- The window-end adjustment of `chunk_text`
(`scripts/ingest-indian-guidelines.py`, lines 70-78): the tentative end
is `start + chunk_size`; when that falls strictly before the end of the
text, the last newline or ". " inside the current window, if it lies
past the window midpoint, becomes the new end (one past the break). -/
def breakAdjust (text : List Char) (size : Nat) (start : Int) : Int :=
  let e0 : Int := start + size
  let c0 := pySlice text start e0
  if e0 < (text.length : Int) then
    let lb := max (rfindPat c0 ['\n']) (rfindPat c0 ['.', ' '])
    if lb > ((size / 2 : Nat) : Int) then start + lb + 1 else e0
  else e0

/-- One iteration of the `while start < text_len` loop of `chunk_text`:
state is `(start, chunks so far)`.  The chunk `text[start:end]` is
stripped and appended only when its stripped length exceeds 50; the new
start is `end - overlap`. -/
def chunkStep (text : List Char) (size overlap : Nat)
    (s : Int × List (List Char)) : Int × List (List Char) :=
  let e := breakAdjust text size s.1
  let c := pyStrip (pySlice text s.1 e)
  (e - (overlap : Int), if 50 < c.length then s.2 ++ [c] else s.2)

/-- The `while` loop of `chunk_text`, with explicit fuel: `none` means
the fuel ran out before the loop guard `start < text_len` failed. -/
def chunkLoop (text : List Char) (size overlap : Nat) :
    Nat → Int × List (List Char) → Option (List (List Char))
  | 0, _ => none
  | fuel + 1, s =>
    if s.1 < (text.length : Int) then
      chunkLoop text size overlap fuel (chunkStep text size overlap s)
    else
      some s.2

/-- Model of `chunk_text(text, chunk_size, overlap)`
(`scripts/ingest-indian-guidelines.py`, lines 62-87; the source's
default parameters are `chunk_size = 1000`, `overlap = 100`): empty
text gives `[]`; otherwise the loop runs from start 0.  Fuel
`text.length + 1` suffices whenever every iteration advances the start
by at least one character; `none` reports that the loop failed to
finish within that many iterations. -/
def chunk_text (text : List Char) (size : Nat)
    (overlap : Nat) : Option (List (List Char)) :=
  if text = [] then some [] else
    chunkLoop text size overlap (text.length + 1) ((0 : Int), [])

/-- A 20-character text on which `chunk_text` with `size = 10`,
`overlap = 7` stalls: the first window "aaaaaa\naaa" has its last
newline at index 6 > 10/2, so the window shrinks to end 7 and the next
start is 7 - 7 = 0 again. -/
def chunkStallText : List Char :=
  List.replicate 6 'a' ++ '\n' :: List.replicate 13 'a'

/-- Whenever `overlap < size` and `overlap ≤ size / 2 + 1`, every loop
iteration of `chunk_text` advances the start by at least one character:
the unadjusted window advances by `size - overlap`, and an adjusted
window still ends past index `size / 2` of the window. -/
theorem chunkStep_advance (text : List Char) (size overlap : Nat)
    (hso : overlap < size) (hhalf : overlap ≤ size / 2 + 1)
    (s : Int × List (List Char)) :
    s.1 + 1 ≤ (chunkStep text size overlap s).1 := by
  unfold chunkStep breakAdjust
  dsimp only
  split
  · split
    · rename_i hlb
      omega
    · omega
  · omega

/-- With the advance guarantee, fuel exceeding the remaining length is
enough for the chunking loop to finish. -/
theorem chunkLoop_total (text : List Char) (size overlap : Nat)
    (hso : overlap < size) (hhalf : overlap ≤ size / 2 + 1) :
    ∀ (k : Nat) (s : Int × List (List Char)),
      (text.length : Int) ≤ s.1 + k →
      ∃ cs, chunkLoop text size overlap (k + 1) s = some cs := by
  intro k
  induction k with
  | zero =>
    intro s hs
    refine ⟨s.2, ?_⟩
    unfold chunkLoop
    rw [if_neg]
    omega
  | succ n ih =>
    intro s hs
    by_cases h : s.1 < (text.length : Int)
    · have hadv := chunkStep_advance text size overlap hso hhalf s
      have hrec := ih (chunkStep text size overlap s) (by omega)
      simpa [chunkLoop, h] using hrec
    · exact ⟨s.2, by simp [chunkLoop, h]⟩

/-- C1: for every text and every `(size, overlap)` with
`0 ≤ overlap < size` strengthened by `overlap ≤ size / 2 + 1` (the
default parameters `size = 1000`, `overlap = 100` satisfy it),
`chunk_text` terminates — the loop finishes within `text.length + 1`
iterations — returning a finite list of chunks.  The extra bound on
`overlap` is necessary: without it the loop can stall. -/
theorem chunk_text_terminates (text : List Char) (size overlap : Nat)
    (hso : overlap < size) (hhalf : overlap ≤ size / 2 + 1) :
    ∃ cs, chunk_text text size overlap = some cs := by
  by_cases h : text = []
  · exact ⟨[], by simp [chunk_text, h]⟩
  · have hloop := chunkLoop_total text size overlap hso hhalf
      text.length ((0 : Int), []) (by simp)
    simpa [chunk_text, h] using hloop

/-- C1 witness: a concrete run of `chunk_text` with `size = 10`,
`overlap = 3`. -/
theorem chunk_text_terminates_witness :
    (3 < 10 ∧ 3 ≤ 10 / 2 + 1) ∧
      ∃ cs, chunk_text ("hello there. this is one chunking test".toList)
          10 3 = some cs :=
  ⟨by decide,
   chunk_text_terminates ("hello there. this is one chunking test".toList)
     10 3 (by decide) (by decide)⟩

/-- C1 counterexample: with `size = 10` and `overlap = 7` — a pair the
claim's precondition `0 ≤ overlap < size` admits — the loop state
`(start 0, no chunks)` on `chunkStallText` is a fixed point of the loop
body while the loop guard `start < text length` holds, so the loop
never advances and `chunk_text` never terminates (its fuelled model
exhausts any fuel and reports `none`). -/
theorem chunk_text_stall_cex :
    7 < 10 ∧
      chunkStep chunkStallText 10 7 ((0 : Int), []) = ((0 : Int), []) ∧
      (0 : Int) < (chunkStallText.length : Int) ∧
      chunk_text chunkStallText 10 7 = none := by decide

/-- Model of CPython's builtin `hash` on `str`.  CPython computes a
siphash of the string keyed by the per-process hash seed, which is
randomised at interpreter startup unless `PYTHONHASHSEED` is pinned, so
the value is a function of both the run's seed and the string.  We
model it as a simple keyed polynomial hash; what matters for the
development is only that it is deterministic within one run (one seed)
and varies with the seed. -/
def pyStringHash (seed : Nat) (s : String) : Int :=
  s.toList.foldl (fun a c => a * 31 + (c.toNat : Int)) (seed : Int)

/-- The chunk id derivation of `process_file`
(`scripts/ingest-indian-guidelines.py`, line 126):
`chunk_id = f"{abs(hash(blob.name))}_{i}"`, parameterised by the run's
string-hash function `h`. -/
def chunkId (h : String → Int) (blobName : String) (i : Nat) : String :=
  toString (h blobName).natAbs ++ "_" ++ toString i

/-- C2: the chunk id of `process_file` is derived from Python's
builtin `hash` of the blob name, which is keyed by the per-process hash
seed; two ingestion runs with different seeds derive different chunk
ids for the same `(document, index)` pair, so re-ingestion creates new
documents instead of overwriting — the claimed run-to-run stability
fails.  Shown here on the seeds 0 and 1 for document
"diabetes-guideline.json", chunk index 0. -/
theorem chunkId_seed_dependent :
    chunkId (pyStringHash 0) "diabetes-guideline.json" 0 ≠
      chunkId (pyStringHash 1) "diabetes-guideline.json" 0 := by decide

/-- One persisted chunk record of `process_file`: the fields that vary
per chunk (the remaining `doc_data` fields are constant per document
and a server-assigned timestamp). -/
structure ChunkRecord where
  chunk_id : String
  content : List Char
  embedding_vector : List Int
  deriving Repr, DecidableEq

/-- State of the Firestore write batching in `process_file`: the
uncommitted batch, the `batch_count` counter, and the records already
committed. -/
structure BatchState where
  pending : List ChunkRecord
  count : Nat
  committed : List ChunkRecord

/-- The per-chunk loop of `process_file`
(`scripts/ingest-indian-guidelines.py`, lines 125-152), parameterised
by the run's hash function `h`, the blob name, and the embedding oracle
`embed` (the outcome of `generate_embedding` after its internal
retries: `none` models the call permanently failing, i.e. raising).  A
failed chunk is skipped (`continue`); a successful one is staged with
`batch.set`, and every 100th staged write commits the batch. -/
def ingestLoop (h : String → Int) (blobName : String)
    (embed : Nat → List Char → Option (List Int)) :
    List (List Char) → Nat → BatchState → BatchState
  | [], _, st => st
  | c :: cs, i, st =>
    match embed i c with
    | none => ingestLoop h blobName embed cs (i + 1) st
    | some v =>
      let r : ChunkRecord := ⟨chunkId h blobName i, c, v⟩
      let pending' := st.pending ++ [r]
      if 100 ≤ st.count + 1 then
        ingestLoop h blobName embed cs (i + 1)
          ⟨[], 0, st.committed ++ pending'⟩
      else
        ingestLoop h blobName embed cs (i + 1)
          ⟨pending', st.count + 1, st.committed⟩

/-- The final `if batch_count > 0: batch.commit()` of `process_file`. -/
def finalizeBatch (st : BatchState) : List ChunkRecord :=
  if 0 < st.count then st.committed ++ st.pending else st.committed

/-- The chunk records persisted by one `process_file` run over the
given chunks. -/
def persistedChunks (h : String → Int) (blobName : String)
    (embed : Nat → List Char → Option (List Int))
    (chunks : List (List Char)) : List ChunkRecord :=
  finalizeBatch (ingestLoop h blobName embed chunks 0 ⟨[], 0, []⟩)

/-- The records of the chunks whose embedding succeeds, in order,
starting at index `i`. -/
def embedSuccesses (h : String → Int) (blobName : String)
    (embed : Nat → List Char → Option (List Int)) :
    List (List Char) → Nat → List ChunkRecord
  | [], _ => []
  | c :: cs, i =>
    match embed i c with
    | none => embedSuccesses h blobName embed cs (i + 1)
    | some v =>
      ⟨chunkId h blobName i, c, v⟩ :: embedSuccesses h blobName embed cs (i + 1)

/-- Committing in batches of 100 with a final flush persists exactly
the staged records, in order: the batching state
`(pending, batch_count = pending.length, committed)` flattens to
`committed ++ pending ++ successes`. -/
theorem ingestLoop_flatten (h : String → Int) (blobName : String)
    (embed : Nat → List Char → Option (List Int)) :
    ∀ (cs : List (List Char)) (i : Nat) (pending committed : List ChunkRecord),
      finalizeBatch
          (ingestLoop h blobName embed cs i ⟨pending, pending.length, committed⟩)
        = committed ++ pending ++ embedSuccesses h blobName embed cs i := by
  intro cs
  induction cs with
  | nil =>
    intro i pending committed
    cases pending <;> simp [ingestLoop, finalizeBatch, embedSuccesses]
  | cons c cs ih =>
    intro i pending committed
    cases hm : embed i c with
    | none =>
      simp only [ingestLoop, hm, embedSuccesses]
      exact ih (i + 1) pending committed
    | some v =>
      simp only [ingestLoop, hm, embedSuccesses]
      by_cases hful : 100 ≤ pending.length + 1
      · rw [if_pos hful]
        have base := ih (i + 1) []
          (committed ++ (pending ++ [(⟨chunkId h blobName i, c, v⟩ : ChunkRecord)]))
        simp only [List.append_assoc, List.singleton_append,
          List.append_nil] at base
        rw [List.append_assoc]
        exact base
      · rw [if_neg hful]
        have base := ih (i + 1)
          (pending ++ [(⟨chunkId h blobName i, c, v⟩ : ChunkRecord)]) committed
        simp only [List.append_assoc, List.singleton_append,
          List.length_append, List.length_singleton] at base
        rw [List.append_assoc]
        exact base

/-- One `process_file` run persists exactly the records of the chunks
whose embedding succeeded, in order. -/
theorem persistedChunks_eq (h : String → Int) (blobName : String)
    (embed : Nat → List Char → Option (List Int))
    (chunks : List (List Char)) :
    persistedChunks h blobName embed chunks
      = embedSuccesses h blobName embed chunks 0 := by
  have hf := ingestLoop_flatten h blobName embed chunks 0 [] []
  simpa [persistedChunks] using hf

/-- If the embedding oracle never fails at indices past `j`, every
chunk from such an index on is persisted. -/
theorem embedSuccesses_length_after (h : String → Int) (blobName : String)
    (embed : Nat → List Char → Option (List Int)) (j : Nat)
    (hembed : ∀ i c, embed i c = none ↔ i = j) :
    ∀ (cs : List (List Char)) (i : Nat), j < i →
      (embedSuccesses h blobName embed cs i).length = cs.length := by
  intro cs
  induction cs with
  | nil => intro i _; simp [embedSuccesses]
  | cons c cs ih =>
    intro i hi
    cases hm : embed i c with
    | none =>
      have : i = j := (hembed i c).mp hm
      omega
    | some v =>
      simp only [embedSuccesses, hm, List.length_cons]
      rw [ih (i + 1) (by omega)]

/-- If the embedding oracle fails exactly at index `j`, and `j` lies in
the index range of the chunk list, exactly one chunk is dropped. -/
theorem embedSuccesses_length_miss (h : String → Int) (blobName : String)
    (embed : Nat → List Char → Option (List Int)) (j : Nat)
    (hembed : ∀ i c, embed i c = none ↔ i = j) :
    ∀ (cs : List (List Char)) (i : Nat), i ≤ j → j < i + cs.length →
      (embedSuccesses h blobName embed cs i).length = cs.length - 1 := by
  intro cs
  induction cs with
  | nil => intro i hle hlt; simp at hlt; omega
  | cons c cs ih =>
    intro i hle hlt
    by_cases hij : i = j
    · have hm : embed i c = none := (hembed i c).mpr hij
      simp only [embedSuccesses, hm]
      rw [embedSuccesses_length_after h blobName embed j hembed cs (i + 1) (by omega)]
      simp
    · cases hm : embed i c with
      | none =>
        have : i = j := (hembed i c).mp hm
        omega
      | some v =>
        simp only [embedSuccesses, hm, List.length_cons]
        have hcs : 1 ≤ cs.length := by
          simp only [List.length_cons] at hlt
          omega
        rw [ih (i + 1) (by omega) (by simp only [List.length_cons] at hlt; omega)]
        omega

/-- C3: if the embedding call permanently fails for exactly one of the
`n` chunks of a document (index `j`), `process_file` persists exactly
`n - 1` chunk records: the failed chunk is skipped and the remaining
chunks and the surrounding write batch continue. -/
theorem process_file_skips_failed_chunk (h : String → Int)
    (blobName : String) (embed : Nat → List Char → Option (List Int))
    (chunks : List (List Char)) (j : Nat)
    (hj : j < chunks.length)
    (hembed : ∀ i c, embed i c = none ↔ i = j) :
    (persistedChunks h blobName embed chunks).length = chunks.length - 1 := by
  rw [persistedChunks_eq]
  exact embedSuccesses_length_miss h blobName embed j hembed chunks 0
    (by omega) (by omega)

/-- An embedding oracle that permanently fails exactly on chunk index 1
(the second of three chunks). -/
def embedFailAt1 : Nat → List Char → Option (List Int) :=
  fun i _ => if i = 1 then none else some [7, 7]

/-- C3 witness: three chunks, the embedding of chunk 1 permanently
fails, exactly two records are persisted. -/
theorem process_file_skips_failed_chunk_witness :
    1 < 3 ∧
      (persistedChunks (pyStringHash 0) "doc.json" embedFailAt1
          [['a'], ['b'], ['c']]).length = 3 - 1 :=
  ⟨by decide,
   process_file_skips_failed_chunk (pyStringHash 0) "doc.json" embedFailAt1
     [['a'], ['b'], ['c']] 1 (by decide)
     (by
       intro i c
       by_cases hi : i = 1 <;> simp [embedFailAt1, hi])⟩

/-- The uniform agent outcome as constructed by
`DailyMedRetriever._execute`: success flag, the `data['results']` list,
and the optional error string.  The wall-clock fields `latency_ms` and
`metadata` are omitted from the model. -/
structure AgentResult (R : Type) where
  success : Bool
  results : List R
  error : Option String

/-- Model of `DailyMedRetriever._execute`
(`lib/agents/sub_agents/dailymed_retriever.py`, lines 43-103).  The
empty-input guard is modelled exactly; the body of the non-empty branch
(`search_drug_labels` and the metrics logging) is abstracted as an
oracle `search` returning the retrieved labels together with the
number of network requests it issued, since `_execute` itself issues
none.  The invocation's result is paired with its total network-call
count. -/
def dailymedExecute {R : Type} (drug_names : List String)
    (max_results : Nat)
    (search : List String → Nat → List R × Nat) : AgentResult R × Nat :=
  if drug_names.isEmpty then
    (⟨false, [], some "No drug names provided"⟩, 0)
  else
    let sr := search drug_names max_results
    (⟨true, sr.1, none⟩, sr.2)

/-- C4: invoking the retrieval agent with an empty drug-name list
returns an outcome with `success = false` and a non-empty error string,
and issues zero network calls, for every search oracle and result cap. -/
theorem dailymed_empty_entities {R : Type} (max_results : Nat)
    (search : List String → Nat → List R × Nat) :
    (dailymedExecute [] max_results search).1.success = false ∧
      (∃ e, (dailymedExecute [] max_results search).1.error = some e ∧
        e ≠ "") ∧
      (dailymedExecute [] max_results search).2 = 0 :=
  ⟨rfl, ⟨"No drug names provided", rfl, by decide⟩, rfl⟩

/-- Model of the per-section-code body of
`DailyMedRetriever._parse_spl_xml`
(`lib/agents/sub_agents/dailymed_retriever.py`, lines 264-279), applied
to the texts (`''.join(element.itertext())`) of the elements matching
one LOINC code: each element's text is stripped; texts that are empty
or not longer than 20 characters are dropped as noise; if any survive,
the section's value is their `"\n\n"`-join truncated to 3000
characters, otherwise the section is absent (`none`). -/
def parseSection (elementTexts : List (List Char)) : Option (List Char) :=
  let section_texts := (elementTexts.map pyStrip).filter
    (fun t => !t.isEmpty && decide (20 < t.length))
  if section_texts.isEmpty then none
  else some ((List.intercalate ['\n', '\n'] section_texts).take 3000)

/-- C5 (amended): a matched section is included in the parser's output
iff at least one matching element's own stripped text is strictly
longer than 20 characters — the threshold is applied per element, not
to the concatenation — and the included text is truncated to 3000
characters. -/
theorem parse_spl_section_spec (ts : List (List Char)) :
    ((parseSection ts).isSome ↔ ∃ t ∈ ts, 20 < (pyStrip t).length) ∧
      ((parseSection ts).getD []).length ≤ 3000 := by
  have hmem : ∀ x, (x ∈ (ts.map pyStrip).filter
      (fun t => !t.isEmpty && decide (20 < t.length))) ↔
      ∃ t ∈ ts, pyStrip t = x ∧ 20 < x.length := by
    intro x
    rw [List.mem_filter]
    constructor
    · rintro ⟨hx, hp⟩
      obtain ⟨t, ht, rfl⟩ := List.mem_map.mp hx
      simp only [Bool.and_eq_true, decide_eq_true_eq] at hp
      exact ⟨t, ht, rfl, hp.2⟩
    · rintro ⟨t, ht, rfl, hlen⟩
      refine ⟨List.mem_map_of_mem _ ht, ?_⟩
      simp only [Bool.and_eq_true, decide_eq_true_eq]
      refine ⟨?_, hlen⟩
      simp only [Bool.not_eq_true', List.isEmpty_eq_false]
      intro hnil
      rw [hnil] at hlen
      simp at hlen
  unfold parseSection
  by_cases hke : ((ts.map pyStrip).filter
      (fun t => !t.isEmpty && decide (20 < t.length))).isEmpty
  · rw [if_pos hke]
    refine ⟨?_, by simp⟩
    simp only [Option.isSome_none, Bool.false_eq_true, false_iff]
    rintro ⟨t, ht, hlen⟩
    rw [List.isEmpty_iff] at hke
    have : pyStrip t ∈ (ts.map pyStrip).filter
        (fun t => !t.isEmpty && decide (20 < t.length)) :=
      (hmem (pyStrip t)).mpr ⟨t, ht, rfl, hlen⟩
    rw [hke] at this
    simp at this
  · rw [if_neg hke]
    constructor
    · simp only [Option.isSome_some, true_iff]
      rw [Bool.not_eq_true, List.isEmpty_eq_false] at hke
      obtain ⟨x, hx⟩ := List.exists_mem_of_ne_nil _ hke
      obtain ⟨t, ht, heq, hlen⟩ := (hmem x).mp hx
      exact ⟨t, ht, heq ▸ hlen⟩
    · simp only [Option.getD_some]
      exact List.length_take_le 3000 _

/-- C5 counterexample: two matching elements whose texts are 15
characters each.  Their combined text is 30 characters — not shorter
than the 20-character minimum — yet the parser omits the section,
because the threshold is applied to each element's text separately and
each is dropped. -/
theorem parse_spl_section_cex :
    20 ≤ (pyStrip (List.replicate 15 'a') ++
        pyStrip (List.replicate 15 'a')).length ∧
      parseSection [List.replicate 15 'a', List.replicate 15 'a'] = none := by
  decide

/-- The Gemini model configuration (`lib/config/gcp_config.py`,
`GeminiConfig`, lines 60-96): the model identifiers and the
model-selection policy flags.  Generation parameters (temperature and
friends) are omitted; every field is an input because each is read from
an environment variable with a built-in default. -/
structure GeminiConfig where
  flash_model : String
  pro_model : String
  agent_1_model : String
  agent_5_model : String
  agent_6_model : String
  agent_7_model : String
  embedding_model : String
  use_pro_for_synthesis : Bool
  use_pro_for_complex_queries : Bool
  use_pro_for_contradictions : Bool
  fallback_model : String

/-- The built-in defaults of `GeminiConfig` — the values taken when the
corresponding environment variables are unset. -/
def defaultGeminiConfig : GeminiConfig where
  flash_model := "gemini-3-flash-preview"
  pro_model := "gemini-3-pro-preview"
  agent_1_model := "gemini-3-flash-preview"
  agent_5_model := "gemini-3-pro-preview"
  agent_6_model := "gemini-3-pro-preview"
  agent_7_model := "gemini-3-flash-preview"
  embedding_model := "text-embedding-004"
  use_pro_for_synthesis := true
  use_pro_for_complex_queries := true
  use_pro_for_contradictions := true
  fallback_model := "gemini-3-flash-preview"

/-- The data-source priority configuration (`lib/config/gcp_config.py`,
`DataSourceConfig`, lines 98-116): the five integer ranks.  The search
and API-key fields play no role in the verified claims. -/
structure DataSourceConfig where
  priority_indian_guidelines : Int
  priority_pubmed : Int
  priority_pmc_fulltext : Int
  priority_dailymed : Int
  priority_tavily_web : Int

/-- The built-in default priorities. -/
def defaultDataSourceConfig : DataSourceConfig where
  priority_indian_guidelines := 1
  priority_pubmed := 2
  priority_pmc_fulltext := 3
  priority_dailymed := 4
  priority_tavily_web := 5

/-- Model of `GeminiModelSelector.select_synthesis_model`
(`lib/config/gcp_config.py`, lines 192-207).  The float
`complexity_score` is modelled as a rational; the comparison against
the 0.5 threshold is exact at this scale. -/
def select_synthesis_model (cfg : GeminiConfig) (complexity_score : ℚ)
    (has_contradictions : Bool) : String :=
  if cfg.use_pro_for_synthesis then cfg.pro_model
  else if (1 : ℚ)/2 < complexity_score ∧
      cfg.use_pro_for_complex_queries = true then cfg.pro_model
  else if has_contradictions = true ∧
      cfg.use_pro_for_contradictions = true then cfg.pro_model
  else cfg.fallback_model

/-- C7: synthesis model selection returns the pro model whenever
`use_pro_for_synthesis` is set, regardless of score and contradiction
flag; otherwise it returns the pro model exactly when the complexity
score exceeds 0.5 with the complex-queries flag set, or contradictions
are flagged with the contradictions flag set, and the fallback model
otherwise. -/
theorem select_synthesis_model_spec (cfg : GeminiConfig)
    (complexity_score : ℚ) (has_contradictions : Bool) :
    select_synthesis_model cfg complexity_score has_contradictions =
      if cfg.use_pro_for_synthesis then cfg.pro_model
      else if ((1 : ℚ)/2 < complexity_score ∧
            cfg.use_pro_for_complex_queries = true) ∨
          (has_contradictions = true ∧
            cfg.use_pro_for_contradictions = true) then cfg.pro_model
      else cfg.fallback_model := by
  unfold select_synthesis_model
  split_ifs <;> tauto

/-- The recognized logical task (agent) names of
`GeminiModelSelector.get_agent_model`: the keys of its `agent_models`
dictionary. -/
def agentTasks : List String :=
  ["query_intelligence", "evidence_gap_analyzer", "synthesis_engine",
   "verification_gate"]

/-- Model of `GeminiModelSelector.get_agent_model`
(`lib/config/gcp_config.py`, lines 209-222): dictionary lookup, with
the `raise ValueError(f"Unknown agent: ...")` modelled as
`Except.error`. -/
def get_agent_model (cfg : GeminiConfig) (agent_name : String) :
    Except String String :=
  if agent_name = "query_intelligence" then Except.ok cfg.agent_1_model
  else if agent_name = "evidence_gap_analyzer" then Except.ok cfg.agent_5_model
  else if agent_name = "synthesis_engine" then Except.ok cfg.agent_6_model
  else if agent_name = "verification_gate" then Except.ok cfg.agent_7_model
  else Except.error ("Unknown agent: " ++ agent_name)

/-- C8: a task name outside the recognized set raises an unknown-agent
error instead of returning a default model, and each recognized name
returns the model configured for that agent. -/
theorem get_agent_model_spec (cfg : GeminiConfig) (name : String)
    (h : name ∉ agentTasks) :
    (∃ msg, get_agent_model cfg name = Except.error msg) ∧
      get_agent_model cfg "query_intelligence" = Except.ok cfg.agent_1_model ∧
      get_agent_model cfg "evidence_gap_analyzer" = Except.ok cfg.agent_5_model ∧
      get_agent_model cfg "synthesis_engine" = Except.ok cfg.agent_6_model ∧
      get_agent_model cfg "verification_gate" = Except.ok cfg.agent_7_model := by
  refine ⟨?_, rfl, rfl, rfl, rfl⟩
  simp only [agentTasks, List.mem_cons, List.not_mem_nil, or_false,
    not_or] at h
  obtain ⟨h1, h2, h3, h4⟩ := h
  exact ⟨"Unknown agent: " ++ name,
    by simp [get_agent_model, h1, h2, h3, h4]⟩

/-- C8 witness: the unrecognized task name "telemetry_agent" is
rejected. -/
theorem get_agent_model_spec_witness :
    "telemetry_agent" ∉ agentTasks ∧
      ∃ msg, get_agent_model defaultGeminiConfig "telemetry_agent"
        = Except.error msg :=
  ⟨by decide,
   (get_agent_model_spec defaultGeminiConfig "telemetry_agent" (by decide)).1⟩

/-- The priority list assembled by `validate_configuration`
(`lib/config/gcp_config.py`, lines 254-261), in source order. -/
def prioritiesList (d : DataSourceConfig) : List Int :=
  [d.priority_indian_guidelines, d.priority_pubmed,
   d.priority_pmc_fulltext, d.priority_dailymed, d.priority_tavily_web]

/-- The source-priority fragment of `validate_configuration`
(`lib/config/gcp_config.py`, lines 254-268): `len(set(priorities)) !=
len(priorities)` is modelled by comparing the length of the deduped
list, and each `raise ValueError` by `Except.error`. -/
def validate_priorities (d : DataSourceConfig) : Except String Unit :=
  if (prioritiesList d).dedup.length ≠ (prioritiesList d).length then
    Except.error "Data source priorities must be unique"
  else if d.priority_indian_guidelines ≠ 1 then
    Except.error "Indian Guidelines must have priority 1 (highest)"
  else Except.ok ()

/-- Removing duplicates preserves the length exactly when there were
none. -/
theorem dedup_length_eq_iff (l : List Int) :
    l.dedup.length = l.length ↔ l.Nodup := by
  constructor
  · intro hlen
    have hsub : l.dedup.Sublist l := List.dedup_sublist l
    have heq : l.dedup = l := hsub.eq_of_length hlen
    rw [← heq]
    exact List.nodup_dedup l
  · intro hnd
    rw [List.dedup_eq_self.mpr hnd]

/-- C6: the source-priority validation succeeds exactly when the five
ranks are pairwise distinct and the Indian-guidelines rank is 1; any
duplicate rank or a primary rank other than 1 raises a fatal error. -/
theorem validate_priorities_spec (d : DataSourceConfig) :
    validate_priorities d = Except.ok () ↔
      (prioritiesList d).Nodup ∧ d.priority_indian_guidelines = 1 := by
  have hll := dedup_length_eq_iff (prioritiesList d)
  unfold validate_priorities
  split_ifs with h1 h2
  · exact iff_of_false (by simp) (fun h => h1 (hll.mpr h.1))
  · exact iff_of_false (by simp) (fun h => h2 h.2)
  · exact iff_of_true rfl ⟨hll.mp (by omega), by omega⟩

/-- The model allow-list `GeminiModelSelector.ALLOWED_MODELS`
(`lib/config/gcp_config.py`, lines 186-190). -/
def ALLOWED_MODELS : List String :=
  ["gemini-3.0-flash-thinking-exp-01-21", "gemini-3.0-pro-exp-02-05",
   "text-embedding-004"]

/-- Model of `GeminiModelSelector.validate_model`: membership in the
allow-list. -/
def validate_model (model_name : String) : Bool :=
  ALLOWED_MODELS.contains model_name

/-- The `models_to_check` list of `validate_configuration`
(`lib/config/gcp_config.py`, lines 240-249), in source order. -/
def modelsToCheck (g : GeminiConfig) : List String :=
  [g.flash_model, g.pro_model, g.embedding_model, g.agent_1_model,
   g.agent_5_model, g.agent_6_model, g.agent_7_model]

/-- Model of `validate_configuration` (`lib/config/gcp_config.py`,
lines 224-268): the first configured model failing the allow-list check
raises; otherwise the priority checks run. -/
def validate_configuration (g : GeminiConfig) (d : DataSourceConfig) :
    Except String Unit :=
  match (modelsToCheck g).find? (fun m => ! validate_model m) with
  | some m =>
    Except.error ("Invalid Gemini model: " ++ m ++ ". Only 3.0 models allowed.")
  | none => validate_priorities d

/-- C10: the allow-list holds exactly the two experimental 3.0 models
and the embedding model, and any configuration in which the flash, pro,
or a per-agent model field still holds one of the built-in defaults
("gemini-3-flash-preview" / "gemini-3-pro-preview") fails validation
with a fatal error, because those defaults are not in the allow-list. -/
theorem validate_configuration_rejects_defaults (g : GeminiConfig)
    (d : DataSourceConfig)
    (h : ∃ m ∈ [g.flash_model, g.pro_model, g.agent_1_model,
        g.agent_5_model, g.agent_6_model, g.agent_7_model],
        m = "gemini-3-flash-preview" ∨ m = "gemini-3-pro-preview") :
    ALLOWED_MODELS = ["gemini-3.0-flash-thinking-exp-01-21",
        "gemini-3.0-pro-exp-02-05", "text-embedding-004"] ∧
      ∃ msg, validate_configuration g d = Except.error msg := by
  refine ⟨rfl, ?_⟩
  obtain ⟨m, hm, hdef⟩ := h
  cases hfind : (modelsToCheck g).find? (fun m => ! validate_model m) with
  | some x =>
    exact ⟨"Invalid Gemini model: " ++ x ++ ". Only 3.0 models allowed.",
      by simp [validate_configuration, hfind]⟩
  | none =>
    exfalso
    have hmem : m ∈ modelsToCheck g := by
      simp only [modelsToCheck, List.mem_cons, List.not_mem_nil, or_false]
      simp only [List.mem_cons, List.not_mem_nil, or_false] at hm
      tauto
    have hval := List.find?_eq_none.mp hfind m hmem
    rcases hdef with h' | h' <;> rw [h'] at hval <;> exact hval (by decide)

/-- C10 witness: the all-defaults configuration is rejected. -/
theorem validate_configuration_rejects_defaults_witness :
    (∃ m ∈ [defaultGeminiConfig.flash_model, defaultGeminiConfig.pro_model,
        defaultGeminiConfig.agent_1_model, defaultGeminiConfig.agent_5_model,
        defaultGeminiConfig.agent_6_model, defaultGeminiConfig.agent_7_model],
        m = "gemini-3-flash-preview" ∨ m = "gemini-3-pro-preview") ∧
      ∃ msg, validate_configuration defaultGeminiConfig
          defaultDataSourceConfig = Except.error msg :=
  ⟨by decide,
   (validate_configuration_rejects_defaults defaultGeminiConfig
     defaultDataSourceConfig (by decide)).2⟩

/-- Model of Python `s.endswith(suffix)` on character lists. -/
def listEndsWith (l suf : List Char) : Bool :=
  l.drop (l.length - suf.length) == suf

/-- Model of Python `sub in s` (substring containment) on character
lists, for a nonempty pattern. -/
def listHasSub (l sub : List Char) : Bool :=
  decide (0 ≤ rfindPat l sub)

/-- Model of Python `s.lower()` on character lists. -/
def pyLower (l : List Char) : List Char :=
  l.map Char.toLower

/-- The ".json" suffix `main` requires of ingestible blob names. -/
def jsonSuffix : List Char := ['.', 'j', 's', 'o', 'n']

/-- The "diabetes" keyword of the priority-1 filter in `main`. -/
def diabetesPat : List Char := ['d', 'i', 'a', 'b', 'e', 't', 'e', 's']

/-- The "icmr" keyword of the priority-2 filter in `main`. -/
def icmrPat : List Char := ['i', 'c', 'm', 'r']

/-- One iteration of the blob-classification loop of `main`
(`scripts/ingest-indian-guidelines.py`, lines 211-225): non-`.json`
names are skipped; names whose lowercase form contains "diabetes" go to
the first (priority 1) list, else names containing "icmr" go to the
second (priority 2) list, and all other names are dropped. -/
def selectStep (acc : List (List Char) × List (List Char))
    (n : List Char) : List (List Char) × List (List Char) :=
  if ! listEndsWith n jsonSuffix then acc
  else if listHasSub (pyLower n) diabetesPat then
    (acc.1 ++ [n], acc.2)
  else if listHasSub (pyLower n) icmrPat then
    (acc.1, acc.2 ++ [n])
  else acc

/-- The two priority lists `main` builds from the bucket's blob
names. -/
def selectBlobs (names : List (List Char)) :
    List (List Char) × List (List Char) :=
  names.foldl selectStep ([], [])

/-- The names `main` passes to `process_file`, in processing order:
the diabetes files first, then the other ICMR files
(`scripts/ingest-indian-guidelines.py`, lines 227-236). -/
def processedBlobs (names : List (List Char)) : List (List Char) :=
  (selectBlobs names).1 ++ (selectBlobs names).2

/-- A name failing the selection predicate is in neither accumulator
after folding the classification step over any name list. -/
theorem selectFold_not_mem (n : List Char)
    (h : listEndsWith n jsonSuffix = false ∨
      (listHasSub (pyLower n) diabetesPat = false ∧
        listHasSub (pyLower n) icmrPat = false)) :
    ∀ (names : List (List Char)) (acc : List (List Char) × List (List Char)),
      n ∉ acc.1 → n ∉ acc.2 →
      n ∉ (names.foldl selectStep acc).1 ∧
        n ∉ (names.foldl selectStep acc).2 := by
  intro names
  induction names with
  | nil => intro acc h1 h2; exact ⟨h1, h2⟩
  | cons m ms ih =>
    intro acc h1 h2
    rw [List.foldl_cons]
    apply ih
    · unfold selectStep
      split_ifs with hj hd hi
      · exact h1
      · intro hmem
        rcases List.mem_append.mp hmem with hin | hone
        · exact h1 hin
        · have hnm : n = m := List.mem_singleton.mp hone
          subst hnm
          rcases h with h' | ⟨h', _⟩
          · simp [h'] at hj
          · simp [h'] at hd
      · exact h1
      · exact h1
    · unfold selectStep
      split_ifs with hj hd hi
      · exact h2
      · exact h2
      · intro hmem
        rcases List.mem_append.mp hmem with hin | hone
        · exact h2 hin
        · have hnm : n = m := List.mem_singleton.mp hone
          subst hnm
          rcases h with h' | ⟨_, h'⟩
          · simp [h'] at hj
          · simp [h'] at hi
      · exact h2

/-- C9: a bucket object whose name does not end in ".json", or whose
lowercase name contains neither "diabetes" nor "icmr", lands in neither
priority list, so `main` never passes it to `process_file`: it is never
downloaded, chunked, embedded, or persisted. -/
theorem ingestion_excludes_nonmatching (names : List (List Char))
    (n : List Char)
    (h : listEndsWith n jsonSuffix = false ∨
      (listHasSub (pyLower n) diabetesPat = false ∧
        listHasSub (pyLower n) icmrPat = false)) :
    n ∉ processedBlobs names := by
  intro hmem
  have key := selectFold_not_mem n h names ([], [])
    (List.not_mem_nil n) (List.not_mem_nil n)
  unfold processedBlobs selectBlobs at hmem
  rcases List.mem_append.mp hmem with hin | hin
  · exact key.1 hin
  · exact key.2 hin

/-- C9 witness: "report.pdf" (not a `.json` name) is excluded from a
run over a bucket also holding a matching guideline file. -/
theorem ingestion_excludes_nonmatching_witness :
    (listEndsWith "report.pdf".toList jsonSuffix = false ∨
      (listHasSub (pyLower "report.pdf".toList) diabetesPat = false ∧
        listHasSub (pyLower "report.pdf".toList) icmrPat = false)) ∧
      "report.pdf".toList ∉
        processedBlobs ["report.pdf".toList,
          "ICMR-Diabetes-Guidelines-2018.json".toList] :=
  ⟨by decide,
   ingestion_excludes_nonmatching
     ["report.pdf".toList, "ICMR-Diabetes-Guidelines-2018.json".toList]
     "report.pdf".toList (by decide)⟩
